import Mathlib

/-!
# MTMmonitor — verification of the event-classification engine

Shallow embedding of the duplicate-suppression, condition-evaluation and
trigger-matching logic of `src/injected-script.js` and of the consumer-side
event-log logic of the content script, with theorems settling the frozen
claims about the specification.

JavaScript values are modelled by the inductive `JSVal`; JS numbers are
modelled by the integers (the source only ever compares and adds integral
quantities in the verified paths; strings denoting non-integral numbers
fall outside the modelled domain and coerce to `NaN`, i.e. `none`).
Time (`Date.now()`) is modelled by `Int` milliseconds.
-/

set_option autoImplicit false

namespace MTM

/-- Model of a JavaScript value: `null`, `undefined`, booleans, (integral)
numbers, strings, arrays and plain objects (ordered field lists, unique
keys by construction in the source). -/
inductive JSVal where
  | null
  | undefined
  | bool (b : Bool)
  | num (n : Int)
  | str (s : String)
  | arr (elems : List JSVal)
  | obj (fields : List (String × JSVal))
  deriving Repr

namespace JSVal

/-- JS truthiness: `false`, `0`, `""`, `null`, `undefined` are falsy;
objects and arrays (even empty) are truthy. -/
def truthy : JSVal → Bool
  | .null => false
  | .undefined => false
  | .bool b => b
  | .num n => n != 0
  | .str s => s != ""
  | .arr _ => true
  | .obj _ => true

/-- `typeof v === 'object'` together with non-nullness: arrays and plain
objects (the `null` case is always guarded by a truthiness check first in
the source). -/
def isObjectType : JSVal → Bool
  | .arr _ => true
  | .obj _ => true
  | _ => false

/-- JS `a || b`: `a` when truthy, else `b`. -/
def jsOr (a b : JSVal) : JSVal :=
  if a.truthy then a else b

/-- Element conversion used inside `Array.prototype.join`: `null` and
`undefined` become the empty string. -/
def joinElemIsNullish : JSVal → Bool
  | .null => true
  | .undefined => true
  | _ => false

/-- JS `String(v)` coercion. Arrays join their elements with `","`
(`null`/`undefined` elements become empty); objects print as
`"[object Object]"`. -/
def jsString : JSVal → String
  | .null => "null"
  | .undefined => "undefined"
  | .bool b => if b then "true" else "false"
  | .num n => toString n
  | .str s => s
  | .arr xs => String.intercalate "," (jsStringElems xs)
  | .obj _ => "[object Object]"
where
  /-- Stringify each array element for `join`. -/
  jsStringElems : List JSVal → List String
  | [] => []
  | x :: xs => (if joinElemIsNullish x then "" else jsString x) :: jsStringElems xs

/-- Escape a string for inclusion in a JSON string literal (backslash and
double quote; control characters do not occur in the verified paths). -/
def jsonEscape (s : String) : String :=
  String.mk (s.toList.foldr (fun c acc =>
    (if c = '\\' then ['\\', '\\'] else if c = '"' then ['\\', '"'] else [c]) ++ acc) [])

/-- `JSON.stringify` — `none` models the `undefined` result for a bare
`undefined`; inside arrays `undefined` serializes as `null`, inside objects
the field is omitted. -/
def jsonStringify : JSVal → Option String
  | .null => some "null"
  | .undefined => none
  | .bool b => some (if b then "true" else "false")
  | .num n => some (toString n)
  | .str s => some ("\"" ++ jsonEscape s ++ "\"")
  | .arr xs => some ("[" ++ String.intercalate "," (jsonElems xs) ++ "]")
  | .obj fs => some ("\x7b" ++ String.intercalate "," (jsonFields fs) ++ "\x7d")
where
  /-- Serialize array elements (`undefined` becomes `null`). -/
  jsonElems : List JSVal → List String
  | [] => []
  | x :: xs => ((jsonStringify x).getD "null") :: jsonElems xs
  /-- Serialize object fields, omitting `undefined`-valued ones. -/
  jsonFields : List (String × JSVal) → List String
  | [] => []
  | (k, v) :: fs =>
    match jsonStringify v with
    | some sv => ("\"" ++ jsonEscape k ++ "\":" ++ sv) :: jsonFields fs
    | none => jsonFields fs

/-- A string that denotes a canonical array index (`"0"`, `"17"`, …). -/
def canonicalIndex? (key : String) : Option Nat :=
  if key.toList ≠ [] ∧ key.toList.all Char.isDigit then
    let i := key.toList.foldl (fun a c => a * 10 + (c.toNat - 48)) 0
    if toString i = key then some i else none
  else none

/-- JS property read `v[key]` for the value forms that occur in the source:
object fields, array elements and `length`, string characters and `length`;
anything else yields `undefined`. -/
def jsIndex : JSVal → String → JSVal
  | .obj fs, key => ((fs.find? (fun kv => kv.1 == key)).map (·.2)).getD .undefined
  | .arr xs, key =>
    if key == "length" then .num xs.length
    else match canonicalIndex? key with
      | some i => xs.getD i .undefined
      | none => .undefined
  | .str s, key =>
    if key == "length" then .num s.length
    else match canonicalIndex? key with
      | some i => match s.toList.get? i with
        | some c => .str (String.singleton c)
        | none => .undefined
      | none => .undefined
  | _, _ => .undefined

/-- JS `v.hasOwnProperty(key)` for the same value forms. -/
def jsHasOwn : JSVal → String → Bool
  | .obj fs, key => fs.any (fun kv => kv.1 == key)
  | .arr xs, key => key == "length" || (canonicalIndex? key).elim false (· < xs.length)
  | .str s, key => key == "length" || (canonicalIndex? key).elim false (· < s.length)
  | _, _ => false

/-- A non-empty all-digit character run read as a natural number. -/
def digitsToNat? (l : List Char) : Option Nat :=
  if l ≠ [] ∧ l.all Char.isDigit then
    some (l.foldl (fun a c => a * 10 + (c.toNat - 48)) 0)
  else none

/-- Whitespace-trim on the character list (JS `Number` trims both ends). -/
def trimChars (l : List Char) : List Char :=
  ((l.dropWhile Char.isWhitespace).reverse.dropWhile Char.isWhitespace).reverse

/-- Integer fragment of JS `Number(string)`: trimmed-empty is `0`, an
optional sign followed by decimal digits is that integer, everything else
is `NaN` (`none`). -/
def parseJSNumber (s : String) : Option Int :=
  match trimChars s.toList with
  | [] => some 0
  | '-' :: rest => (digitsToNat? rest).map (fun n => -(n : Int))
  | '+' :: rest => (digitsToNat? rest).map (fun n => (n : Int))
  | l => (digitsToNat? l).map (fun n => (n : Int))

/-- JS `Number(v)` coercion, with `none` standing for `NaN`. Arrays coerce
through their joined string form; plain objects are `NaN`. -/
def toNumber : JSVal → Option Int
  | .null => some 0
  | .undefined => none
  | .bool b => some (if b then 1 else 0)
  | .num n => some n
  | .str s => parseJSNumber s
  | .arr xs => parseJSNumber (jsString (.arr xs))
  | .obj _ => none

end JSVal

open JSVal

/-- JS `String.prototype.includes` (the empty needle is always found). -/
def strIncludes (s sub : String) : Bool :=
  s.toList.tails.any (fun t => sub.toList.isPrefixOf t)

/-- JS `String.prototype.startsWith`. -/
def strStartsWith (s sub : String) : Bool :=
  sub.toList.isPrefixOf s.toList

/-- JS `String.prototype.endsWith`. -/
def strEndsWith (s sub : String) : Bool :=
  sub.toList.reverse.isPrefixOf s.toList.reverse

/-- Remove the first occurrence of `pat` from `s` (empty pattern matches
at the start, leaving the string unchanged — as JS `replace` with empty
replacement does). -/
def removeFirst : List Char → List Char → List Char
  | [], _ => []
  | x :: xs, pat =>
    if pat.isPrefixOf (x :: xs) then (x :: xs).drop pat.length
    else x :: removeFirst xs pat

/-- JS `String.prototype.replace` with a plain-string pattern and empty
replacement: removes the first occurrence only. -/
def replaceFirst (s pat : String) : String :=
  String.mk (removeFirst s.toList pat.toList)

/-- JS `String.prototype.split` with a single-character separator
(`"a.b".split('.') = ["a","b"]`, `"".split('.') = [""]`). -/
def splitOnChar (c : Char) : List Char → List (List Char)
  | [] => [[]]
  | x :: xs =>
    let r := splitOnChar c xs
    if x = c then [] :: r
    else match r with
      | h :: t => (x :: h) :: t
      | [] => [[x]]

/-- Split a dot-separated variable path into its segments. -/
def splitPath (s : String) : List String :=
  (splitOnChar '.' s.toList).map String.mk

/-- `s.includes('.')` on a single character. -/
def strContainsChar (s : String) (c : Char) : Bool :=
  s.toList.any (fun x => x = c)

/-- First value bound to `key` in an association list (JS `Map.get`). -/
def assocFind? {V : Type} (m : List (String × V)) (key : String) : Option V :=
  ((m.find? (fun kv => kv.1 == key)).map (·.2))

/-- JS `Map.set`: replace the value at an existing key in place, else
append the binding. -/
def assocSet {V : Type} (m : List (String × V)) (key : String) (v : V) :
    List (String × V) :=
  if m.any (fun kv => kv.1 == key) then
    m.map (fun kv => if kv.1 == key then (kv.1, v) else kv)
  else m ++ [(key, v)]

/-- `v === null || v === undefined` (used through `!== null && !== undefined`
guards in the source). -/
def isNullOrUndefined : JSVal → Bool
  | .null => true
  | .undefined => true
  | _ => false

/-- Strict equality `v === "lit"` against a string literal. -/
def strictEqStr (v : JSVal) (s : String) : Bool :=
  match v with
  | .str t => t == s
  | _ => false

/-- `v === undefined`. -/
def isUndefined : JSVal → Bool
  | .undefined => true
  | _ => false

/-- `getNestedValue` (injected-script.js:89): walk a dot-separated path,
stepping only while the current value is truthy and the step is defined
(`current && current[key] !== undefined ? current[key] : null`). -/
def getNestedValue (root : JSVal) (path : String) : JSVal :=
  (splitPath path).foldl
    (fun current key =>
      if current.truthy && !(isUndefined (jsIndex current key)) then jsIndex current key
      else .null)
    root

/-- The host regular-expression facility: `compile` returns `none` exactly
when `new RegExp(pattern)` would throw on an invalid pattern, else the
compiled `test` predicate. -/
structure RegexEngine where
  compile : String → Option (String → Bool)

/-- The pattern string `new RegExp(expected)` works on: `undefined` becomes
the empty pattern, every other value its string coercion. -/
def regexPatternOf (expected : JSVal) : String :=
  match expected with
  | .undefined => ""
  | v => v.jsString

/-- Ambient page state the resolver reads: current address, the global
`dataLayer` array (absent modelled as empty — the source skips the
backlog loop in that case, which behaves identically) and the regex
facility. -/
structure Env where
  href : String
  dataLayer : List JSVal
  regex : RegexEngine

/-- An MTM variable definition as read from the container:
`{type, parameters, defaultValue}`. -/
structure Variable where
  type : String
  parameters : JSVal
  defaultValue : JSVal

/-- A trigger condition `{actual, comparison, expected}`; `none` for
`actual` models a missing/null field (`if (!variable) return null`). -/
structure Condition where
  actual : Option Variable
  comparison : String
  expected : JSVal

/-- An MTM trigger; `conditions = none` models a missing `conditions`
field (`!trigger.conditions`). -/
structure Trigger where
  name : String
  conditions : Option (List Condition)

/-- The event information handed to the matcher: the event name and the
flattened `dataLayerData` object built by `extractEventInfo`. -/
structure EventInfo where
  eventName : JSVal
  dataLayerData : List (String × JSVal)

/-- Reverse-chronological search of the global `dataLayer` backlog
(injected-script.js:1018–1036); the input list is the backlog already
reversed. -/
def searchGlobalDataLayer (name : String) : List JSVal → JSVal
  | [] => .null
  | e :: rest =>
    if !e.truthy then searchGlobalDataLayer name rest
    else if jsHasOwn e name then jsIndex e name
    else if strContainsChar name '.' then
      let v := getNestedValue e name
      if !isNullOrUndefined v then v else searchGlobalDataLayer name rest
    else searchGlobalDataLayer name rest

/-- `getNestedDataLayerValue` (injected-script.js:1003): event-local data
first (own property, then dotted path), then the global backlog newest
first, else `null`. -/
def getNestedDataLayerValue (name : String) (info : EventInfo) (env : Env) : JSVal :=
  match assocFind? info.dataLayerData name with
  | some v => v
  | none =>
    let nested : Option JSVal :=
      if strContainsChar name '.' then
        let v := getNestedValue (.obj info.dataLayerData) name
        if !isNullOrUndefined v then some v else none
      else none
    match nested with
    | some v => v
    | none => searchGlobalDataLayer name env.dataLayer.reverse

/-- `getVariableValue` (injected-script.js:967). The `DataLayer` arm looks
the name up (string form — container configurations carry string names);
`PageUrl` returns the page address; `CustomJsFunction` and every other
type (the source has no `Constant` arm, so it takes the `default:` branch)
return `defaultValue || null`. -/
def getVariableValueOf (env : Env) (v : Variable) (info : EventInfo) : JSVal :=
  match v.type with
    | "DataLayer" =>
      let dataLayerName := jsIndex v.parameters "dataLayerName"
      if dataLayerName.truthy then
        let value := getNestedDataLayerValue dataLayerName.jsString info env
        if !isNullOrUndefined value then value
        else v.defaultValue.jsOr .null
      else v.defaultValue.jsOr .null
    | "PageUrl" => .str env.href
    | "CustomJsFunction" => v.defaultValue.jsOr .null
    | _ => v.defaultValue.jsOr .null

/-- `getVariableValue`, outer guard: `if (!variable) return null`. -/
def getVariableValue (env : Env) (varRef : Option Variable) (info : EventInfo) : JSVal :=
  match varRef with
  | none => .null
  | some v => getVariableValueOf env v info

/-- The operator table of `evaluateCondition` (injected-script.js:920),
applied to the already-resolved actual value. Every arm is total; the
`matchesRegex` arm routes the `new RegExp` failure case (`compile = none`)
to `false` — the modelled form of the source's `try { … } catch { return
false }`. -/
def evalOp (env : Env) (comparison : String) (actualValue expected : JSVal) : Bool :=
  match comparison with
  | "equals" =>
    match actualValue, JSVal.toNumber expected with
    | .num a, some e => a == e
    | a, _ => a.jsString == expected.jsString
  | "notEquals" =>
    match actualValue, JSVal.toNumber expected with
    | .num a, some e => a != e
    | a, _ => a.jsString != expected.jsString
  | "contains" => strIncludes actualValue.jsString expected.jsString
  | "notContains" => !(strIncludes actualValue.jsString expected.jsString)
  | "startsWith" => strStartsWith actualValue.jsString expected.jsString
  | "endsWith" => strEndsWith actualValue.jsString expected.jsString
  | "matchesRegex" =>
    match env.regex.compile (regexPatternOf expected) with
    | some test => test actualValue.jsString
    | none => false
  | "greaterThan" =>
    match JSVal.toNumber actualValue, JSVal.toNumber expected with
    | some a, some b => decide (a > b)
    | _, _ => false
  | "lessThan" =>
    match JSVal.toNumber actualValue, JSVal.toNumber expected with
    | some a, some b => decide (a < b)
    | _, _ => false
  | "greaterThanOrEqualTo" =>
    match JSVal.toNumber actualValue, JSVal.toNumber expected with
    | some a, some b => decide (a ≥ b)
    | _, _ => false
  | "lessThanOrEqualTo" =>
    match JSVal.toNumber actualValue, JSVal.toNumber expected with
    | some a, some b => decide (a ≤ b)
    | _, _ => false
  | _ => false

/-- `evaluateCondition` (injected-script.js:913): resolve the actual
value, then apply the operator. -/
def evaluateCondition (env : Env) (condition : Condition) (info : EventInfo) : Bool :=
  evalOp env condition.comparison (getVariableValue env condition.actual info) condition.expected

/-- Structural shape test for the timer-gate condition
(injected-script.js:892–896). -/
def hasTimerConditionShape (cond : Condition) : Bool :=
  match cond.actual with
  | none => false
  | some a =>
    a.type == "DataLayer" && a.parameters.truthy &&
      strictEqStr (jsIndex a.parameters "dataLayerName") "aEvent" &&
      strictEqStr cond.expected "timer"

/-- `doesTriggerMatch` (injected-script.js:880): missing or empty
condition list never matches; otherwise every condition is evaluated and
all must hold; the timer special case returns the same full conjunction. -/
def doesTriggerMatch (env : Env) (trigger : Trigger) (info : EventInfo) : Bool :=
  match trigger.conditions with
  | none => false
  | some conds =>
    if conds.length == 0 then false
    else
      let conditionResults := conds.map (fun c => evaluateCondition env c info)
      if strictEqStr info.eventName "timer" ||
          strictEqStr (jsIndex (.obj info.dataLayerData) "aEvent") "timer" then
        if conds.any hasTimerConditionShape then
          conditionResults.all id
        else
          conditionResults.all id
      else
        conditionResults.all id

/-- A host without a working regular-expression facility: every pattern is
rejected (used as a concrete environment in closed instances). -/
def noRegex : RegexEngine := ⟨fun _ => none⟩

/-- Concrete page environment for closed instances. -/
def sampleEnv : Env := ⟨"https://example.test/page", [], noRegex⟩

/-- Concrete event information for closed instances. -/
def sampleInfo : EventInfo := ⟨.str "mtm.CustomEvent", [("event", .str "mtm.CustomEvent")]⟩

/-- A trigger with two conditions that both evaluate true against
`sampleInfo`. -/
def trigBoth : Trigger :=
  ⟨"both", some [⟨none, "equals", .null⟩, ⟨none, "notEquals", .str "x"⟩]⟩

/-- C1: the Trigger Matcher returns true iff the trigger's condition list
is present and non-empty and every condition evaluates true; in
particular a trigger with zero (or missing) conditions never matches, and
partial satisfaction does not match. -/
theorem doesTriggerMatch_iff_all_conditions (env : Env) (trigger : Trigger) (info : EventInfo) :
    doesTriggerMatch env trigger info = true ↔
      ∃ conds, trigger.conditions = some conds ∧ conds ≠ [] ∧
        ∀ c ∈ conds, evaluateCondition env c info = true := by
  cases h : trigger.conditions with
  | none => simp [doesTriggerMatch, h]
  | some conds =>
    by_cases hc : conds = []
    · subst hc
      simp [doesTriggerMatch, h]
    · simp [doesTriggerMatch, h, hc, List.length_eq_zero, List.all_map, List.all_eq_true,
        Function.comp, ite_self]

/-- Closed instance of C1: a two-condition trigger whose conditions both
evaluate true matches `sampleInfo`. -/
theorem doesTriggerMatch_iff_all_conditions_witness :
    doesTriggerMatch sampleEnv trigBoth sampleInfo = true :=
  (doesTriggerMatch_iff_all_conditions sampleEnv trigBoth sampleInfo).mpr
    ⟨_, rfl, by simp, by decide⟩

/-- C4: the `equals` operator is numeric-aware — a numeric actual together
with an expected value that coerces to a number compares numerically,
every other combination compares the string coercions; in particular
`evaluate("42", 42, equals) = true` and `evaluate("42a", 42, equals) =
false`. -/
theorem equals_operator_numeric_aware :
    (∀ (env : Env) (a : Int) (e : JSVal) (y : Int), toNumber e = some y →
        evalOp env "equals" (.num a) e = decide (a = y))
    ∧ (∀ (env : Env) (act e : JSVal), ((∀ x : Int, act ≠ .num x) ∨ toNumber e = none) →
        evalOp env "equals" act e = (act.jsString == e.jsString))
    ∧ evalOp sampleEnv "equals" (.str "42") (.num 42) = true
    ∧ evalOp sampleEnv "equals" (.str "42a") (.num 42) = false := by
  refine ⟨?_, ?_, by decide, by decide⟩
  · intro env a e y h
    by_cases hxy : a = y <;> simp [evalOp, h, hxy]
  · intro env act e h
    rcases h with h | h
    · cases act with
      | num x => exact absurd rfl (h x)
      | null => simp [evalOp]
      | undefined => simp [evalOp]
      | bool b => simp [evalOp]
      | str s => simp [evalOp]
      | arr xs => simp [evalOp]
      | obj fs => simp [evalOp]
    · cases act <;> simp [evalOp, h]

/-- Closed instance of C4: a numeric actual against a parseable string
compares numerically; a non-numeric actual falls back to string
comparison. -/
theorem equals_operator_numeric_aware_witness :
    evalOp sampleEnv "equals" (.num 7) (.str "7") = true ∧
    evalOp sampleEnv "equals" (.str "x") (.str "y") = false := by
  constructor
  · rw [equals_operator_numeric_aware.1 sampleEnv 7 (.str "7") 7 (by decide)]
    decide
  · rw [equals_operator_numeric_aware.2.1 sampleEnv (.str "x") (.str "y")
      (Or.inl (fun x hx => JSVal.noConfusion hx))]
    decide

/-- C5: the `matchesRegex` operator is a total function of its inputs
(the Lean model cannot raise), and whenever the host rejects the pattern
(`new RegExp` would throw) the evaluation returns `false`. -/
theorem matchesRegex_invalid_pattern_false (env : Env) (act e : JSVal)
    (h : env.regex.compile (regexPatternOf e) = none) :
    evalOp env "matchesRegex" act e = false := by
  simp [evalOp, h]

/-- Closed instance of C5: with a host that rejects every pattern, a
`matchesRegex` condition evaluates to `false` rather than failing. -/
theorem matchesRegex_invalid_pattern_false_witness :
    evalOp sampleEnv "matchesRegex" (.str "abc") (.str "[unclosed") = false :=
  matchesRegex_invalid_pattern_false sampleEnv (.str "abc") (.str "[unclosed") rfl

/-- C6 counterexample: a `Constant` variable with `defaultValue = 0`
resolves to `null`, not to its `defaultValue` — the source returns
`variable.defaultValue || null`, so a falsy default is replaced by
`null`. -/
theorem constant_zero_default_counterexample :
    getVariableValue sampleEnv (some ⟨"Constant", .undefined, .num 0⟩) sampleInfo = .null ∧
    JSVal.null ≠ JSVal.num 0 := by
  exact ⟨rfl, fun hx => JSVal.noConfusion hx⟩

/-- C6 (amended): for every variable whose type is neither `DataLayer` nor
`PageUrl` (so `Constant`, `CustomJsFunction` and every unknown type), the
resolver performs no event-context lookup and returns `defaultValue` when
it is truthy and `null` otherwise — the right-hand side does not mention
the event context or the page environment. -/
theorem nonlookup_variable_default_or_null (env : Env) (info : EventInfo) (v : Variable)
    (h1 : v.type ≠ "DataLayer") (h2 : v.type ≠ "PageUrl") :
    getVariableValue env (some v) info =
      (if v.defaultValue.truthy then v.defaultValue else .null) := by
  show getVariableValueOf env v info = _
  unfold getVariableValueOf
  split
  · exact absurd (by assumption) h1
  · exact absurd (by assumption) h2
  · rfl
  · rfl

/-- Closed instance of C6 (amended): a `Constant` variable with a truthy
default resolves to that default. -/
theorem nonlookup_variable_default_or_null_witness :
    getVariableValue sampleEnv (some ⟨"Constant", .undefined, .str "K"⟩) sampleInfo = .str "K" := by
  rw [nonlookup_variable_default_or_null sampleEnv sampleInfo ⟨"Constant", .undefined, .str "K"⟩
    (by decide) (by decide)]
  rfl

/-! ## Deduplication caches

Both the engine-side global cache (`isGlobalDuplicate` /
`markEventAsProcessed`, injected-script.js:258–297) and the consumer-side
presentation cache (`isExactDuplicate`, content script:180–212) key their
entries by the `JSON.stringify` of a cleaned comparison object. -/

/-- `cleanEventDetails` — defined identically in injected-script.js:114
and in the content script: shallow-copy an object (or array, whose spread
yields index keys) and delete the `__mtm_processed`, `_debug` and
`customTimestamp` metadata fields; non-objects pass through. -/
def cleanEventDetails (details : JSVal) : JSVal :=
  if !details.truthy || !details.isObjectType then details
  else
    .obj ((spreadFields details).filter (fun kv =>
      kv.1 != "__mtm_processed" && kv.1 != "_debug" && kv.1 != "customTimestamp"))
where
  /-- `{...v}`: an object's own fields, an array's index keys. -/
  spreadFields : JSVal → List (String × JSVal)
  | .obj fs => fs
  | .arr xs => xs.enum.map (fun p => (toString p.1, p.2))
  | _ => []

/-- `source.replace(' (historical)', '')`. -/
def stripHistorical (s : String) : String :=
  replaceFirst s " (historical)"

/-- The fields of an event record that the two signatures read: `eventName`,
`source` (a string, or `none` for an absent field) and `details`; the
consumer-side record additionally carries `arrayIndex`. -/
structure EventFields where
  eventName : JSVal
  source : Option String
  details : JSVal
  arrayIndex : JSVal := .null

/-- Global-cache signature (isGlobalDuplicate / markEventAsProcessed):
`JSON.stringify({eventName: e.eventName || 'unknown', source:
e.source?.replace(' (historical)','') || 'unknown', details: e.details ?
cleanEventDetails(e.details) : null})`. -/
def globalSignature (e : EventFields) : String :=
  (jsonStringify (.obj [
    ("eventName", e.eventName.jsOr (.str "unknown")),
    ("source", .str (match e.source with
      | some s => if stripHistorical s = "" then "unknown" else stripHistorical s
      | none => "unknown")),
    ("details", if e.details.truthy then cleanEventDetails e.details else .null)])).getD "undefined"

/-- Consumer-side signature (isExactDuplicate): same shape but with no
`|| 'unknown'` fallbacks — an absent `source` stays `undefined` and is
omitted from the serialization. -/
def consumerSignature (e : EventFields) : String :=
  (jsonStringify (.obj [
    ("eventName", e.eventName),
    ("source", match e.source with
      | some s => .str (stripHistorical s)
      | none => .undefined),
    ("details", if e.details.truthy then cleanEventDetails e.details else .null)])).getD "undefined"

/-- The global processed-events cache: signature → last-seen time. -/
abbrev GlobalCache := List (String × Int)

/-- `CACHE_TIMEOUTS.GLOBAL_EVENTS` (ms). -/
def GLOBAL_EVENTS_TIMEOUT : Int := 1000

/-- `PERFORMANCE.DUPLICATE_TIMEOUT` (ms). -/
def DUPLICATE_TIMEOUT : Int := 2000

/-- `cleanupCache` (injected-script.js:100): evict entries strictly older
than `maxAge`. -/
def cleanupCache (cache : GlobalCache) (maxAge now : Int) : GlobalCache :=
  cache.filter (fun kv => !(decide (now - kv.2 > maxAge)))

/-- `isGlobalDuplicate` (injected-script.js:258): a hit within the
1000 ms window. -/
def isGlobalDuplicate (now : Int) (cache : GlobalCache) (e : EventFields) : Bool :=
  match assocFind? cache (globalSignature e) with
  | some lastSeen => decide (now - lastSeen < GLOBAL_EVENTS_TIMEOUT)
  | none => false

/-- `markEventAsProcessed` (injected-script.js:285): record the signature
at `now`, then sweep stale entries. -/
def markEventAsProcessed (now : Int) (cache : GlobalCache) (e : EventFields) : GlobalCache :=
  cleanupCache (assocSet cache (globalSignature e) now) GLOBAL_EVENTS_TIMEOUT now

/-- The duplicate-gate portion of `dispatchMatomoEventWithTimestamp`
(injected-script.js:224–243): a global duplicate is dropped before
dispatch and the cache is untouched; otherwise the event is recorded and
then emitted. Returns (dispatched?, cache after). -/
def dispatchGate (now : Int) (cache : GlobalCache) (e : EventFields) : Bool × GlobalCache :=
  if isGlobalDuplicate now cache e then (false, cache)
  else (true, markEventAsProcessed now cache e)

/-- After the in-place `Map.set` update of an existing key, the first
binding for that key holds the new value. -/
theorem assocFind?_map_update {V : Type} (m : List (String × V)) (k : String) (v : V)
    (h : m.any (fun kv => kv.1 == k) = true) :
    assocFind? (m.map (fun kv => if kv.1 == k then (kv.1, v) else kv)) k = some v := by
  induction m with
  | nil => simp at h
  | cons kv rest ih =>
    by_cases hk : (kv.1 == k) = true
    · simp [assocFind?, List.find?, hk]
    · have hk' : (kv.1 == k) = false := by simpa using hk
      rw [List.any_cons, hk', Bool.false_or] at h
      simpa [assocFind?, List.find?, hk'] using ih h

/-- After the appending `Map.set` of a new key, that key is found with the
new value. -/
theorem assocFind?_append_new {V : Type} (m : List (String × V)) (k : String) (v : V)
    (h : m.any (fun kv => kv.1 == k) = false) :
    assocFind? (m ++ [(k, v)]) k = some v := by
  induction m with
  | nil => simp [assocFind?, List.find?]
  | cons kv rest ih =>
    rw [List.any_cons] at h
    have hk : (kv.1 == k) = false := by
      cases hkv : (kv.1 == k) <;> simp [hkv] at h ⊢
    have hrest : rest.any (fun kv => kv.1 == k) = false := by
      cases hr : rest.any (fun kv => kv.1 == k) <;> simp [hk, hr] at h ⊢
    simpa [assocFind?, List.find?, hk] using ih hrest

/-- Looking a key up after `Map.set` of that key finds the new value. -/
theorem assocFind?_assocSet_self {V : Type} (m : List (String × V)) (k : String) (v : V) :
    assocFind? (assocSet m k v) k = some v := by
  unfold assocSet
  by_cases h : m.any (fun kv => kv.1 == k) = true
  · rw [if_pos h]
    exact assocFind?_map_update m k v h
  · have h' : m.any (fun kv => kv.1 == k) = false := by
      cases hm : m.any (fun kv => kv.1 == k)
      · rfl
      · exact absurd hm h
    rw [if_neg h]
    exact assocFind?_append_new m k v h'

/-- A surviving first binding is still the first binding after `filter`. -/
theorem assocFind?_filter_of_keep {V : Type} (m : List (String × V)) (k : String)
    (p : String × V → Bool) (v : V)
    (hfind : assocFind? m k = some v) (hkeep : p (k, v) = true) :
    assocFind? (m.filter p) k = some v := by
  induction m with
  | nil => simp [assocFind?, List.find?] at hfind
  | cons kv rest ih =>
    by_cases hk : kv.1 == k
    · have hkey : kv.1 = k := by simpa using hk
      have hval : kv.2 = v := by
        simpa [assocFind?, List.find?, hk] using hfind
      have : kv = (k, v) := by
        cases kv; simp_all
      subst this
      simp [List.filter, hkeep, assocFind?, List.find?]
    · have hrest : assocFind? rest k = some v := by
        simpa [assocFind?, List.find?, hk] using hfind
      by_cases hp : p kv
      · simpa [List.filter, hp, assocFind?, List.find?, hk] using ih hrest
      · simpa [List.filter, hp] using ih hrest

/-- C2: two entries with the same normalized signature reaching the
Dispatch Gate within the 1000 ms global-cache window, starting from a
cache with no fresh entry for that signature: the first is dispatched and
recorded under its signature, the second is suppressed before dispatch and
leaves the cache untouched — exactly one emission. -/
theorem global_cache_dedup (e1 e2 : EventFields) (c : GlobalCache) (t1 t2 : Int)
    (hsig : globalSignature e1 = globalSignature e2)
    (hfresh : assocFind? c (globalSignature e1) = none)
    (hwin : t2 - t1 < 1000) :
    (dispatchGate t1 c e1).1 = true ∧
    assocFind? (dispatchGate t1 c e1).2 (globalSignature e1) = some t1 ∧
    (dispatchGate t2 (dispatchGate t1 c e1).2 e2).1 = false ∧
    (dispatchGate t2 (dispatchGate t1 c e1).2 e2).2 = (dispatchGate t1 c e1).2 := by
  have hdup1 : isGlobalDuplicate t1 c e1 = false := by
    simp [isGlobalDuplicate, hfresh]
  have hstep1 : dispatchGate t1 c e1 = (true, markEventAsProcessed t1 c e1) := by
    simp [dispatchGate, hdup1]
  have hrec : assocFind? (markEventAsProcessed t1 c e1) (globalSignature e1) = some t1 := by
    unfold markEventAsProcessed cleanupCache
    exact assocFind?_filter_of_keep _ _ _ _
      (assocFind?_assocSet_self c (globalSignature e1) t1)
      (by simp [GLOBAL_EVENTS_TIMEOUT])
  have hdup2 : isGlobalDuplicate t2 (markEventAsProcessed t1 c e1) e2 = true := by
    unfold isGlobalDuplicate
    rw [← hsig, hrec]
    simpa using hwin
  refine ⟨by rw [hstep1], by rw [hstep1]; exact hrec, ?_, ?_⟩
  · rw [hstep1]
    simp [dispatchGate, hdup2]
  · rw [hstep1]
    simp [dispatchGate, hdup2]

/-- Concrete event fields for the closed dedup instances. -/
def gateEventW : EventFields :=
  { eventName := .str "mtm.CustomEvent",
    source := some "_mtm.push (historical)",
    details := .obj [("event", .str "mtm.CustomEvent"), ("_debug", .str "meta")] }

/-- Closed instance of C2: the same entry arriving twice 500 ms apart is
emitted exactly once. -/
theorem global_cache_dedup_witness :
    (dispatchGate 0 [] gateEventW).1 = true ∧
    assocFind? (dispatchGate 0 [] gateEventW).2 (globalSignature gateEventW) = some 0 ∧
    (dispatchGate 500 (dispatchGate 0 [] gateEventW).2 gateEventW).1 = false ∧
    (dispatchGate 500 (dispatchGate 0 [] gateEventW).2 gateEventW).2 =
      (dispatchGate 0 [] gateEventW).2 :=
  global_cache_dedup gateEventW gateEventW [] 0 500 rfl rfl (by decide)

/-- A presentation-cache record: `{timestamp, hadArrayIndex}`. -/
structure RecentEntry where
  timestamp : Int
  hadArrayIndex : Bool
  deriving Repr, DecidableEq

/-- The consumer-side `recentEvents` map: signature → record. -/
abbrev RecentCache := List (String × RecentEntry)

/-- `newEvent.arrayIndex !== null && newEvent.arrayIndex !== undefined`. -/
def hasArrayIndex (e : EventFields) : Bool :=
  !(isNullOrUndefined e.arrayIndex)

/-- `cleanupEventCaches` (content script:120): evict entries strictly
older than the 2000 ms presentation window. -/
def cleanupEventCaches (now : Int) (cache : RecentCache) : RecentCache :=
  cache.filter (fun kv => !(decide (now - kv.2.timestamp > DUPLICATE_TIMEOUT)))

/-- The duplicate condition of `isExactDuplicate` (content script:191–203):
a cache hit within the window whose stored index-presence differs from the
new delivery's. -/
def consumerDupCheck (now : Int) (cache : RecentCache) (e : EventFields) : Bool :=
  match assocFind? cache (consumerSignature e) with
  | some lastSeen =>
    decide (now - lastSeen.timestamp < DUPLICATE_TIMEOUT) &&
      lastSeen.hadArrayIndex != hasArrayIndex e
  | none => false

/-- `isExactDuplicate` (content script:180): on a duplicate, return `true`
without touching the cache (the early `return true` precedes the
`recentEvents.set`); otherwise record the delivery, sweep stale entries
and return `false`. Returns (duplicate?, cache after). -/
def isExactDuplicate (now : Int) (cache : RecentCache) (e : EventFields) :
    Bool × RecentCache :=
  if consumerDupCheck now cache e then (true, cache)
  else
    (false, cleanupEventCaches now
      (assocSet cache (consumerSignature e) ⟨now, hasArrayIndex e⟩))

/-- C10: when the presentation-cache check classifies a delivery as a
duplicate it returns with the cache untouched — the stored timestamp and
index-presence flag for that signature are unchanged, so a suppressed
duplicate never extends the suppression window; the cache entry is
overwritten only on the non-suppressed path. -/
theorem duplicate_leaves_cache_unchanged (now : Int) (cache : RecentCache) (e : EventFields)
    (h : (isExactDuplicate now cache e).1 = true) :
    (isExactDuplicate now cache e).2 = cache := by
  cases hd : consumerDupCheck now cache e
  · rw [isExactDuplicate, hd] at h
    simp at h
  · rw [isExactDuplicate, hd]
    simp

/-- Consumer-side delivery with an `arrayIndex` (backlog-scan form). -/
def eIdxW : EventFields :=
  { eventName := .str "e", source := some "_mtm.push (historical)",
    details := .obj [("event", .str "e"), ("__mtm_processed", .bool true)],
    arrayIndex := .num 0 }

/-- The same logical event delivered live: no `arrayIndex`, no historical
suffix, no processed marker — the normalized signature is identical. -/
def eNoIdxW : EventFields :=
  { eventName := .str "e", source := some "_mtm.push",
    details := .obj [("event", .str "e")],
    arrayIndex := .null }

/-- Closed instance of C10: a suppressed duplicate leaves the cache
exactly as it was. -/
theorem duplicate_leaves_cache_unchanged_witness :
    (isExactDuplicate 1000 (isExactDuplicate 0 [] eIdxW).2 eNoIdxW).2 =
      (isExactDuplicate 0 [] eIdxW).2 :=
  duplicate_leaves_cache_unchanged 1000 (isExactDuplicate 0 [] eIdxW).2 eNoIdxW (by decide)

/-- C3: within the 2000 ms presentation window, for two deliveries with
the same signature starting from a cache without that signature: the
first is stored (not dropped); if exactly one of the pair carries an
`arrayIndex`, the second is dropped and the cache is untouched — exactly
one survives; if both have the same index-presence, the second is not
dropped and is stored as a new cache record at its own time. -/
theorem presentation_cache_index_tolerance (e1 e2 : EventFields) (c : RecentCache) (t1 t2 : Int)
    (hsig : consumerSignature e1 = consumerSignature e2)
    (hfresh : assocFind? c (consumerSignature e1) = none)
    (hwin : t2 - t1 < 2000) :
    (isExactDuplicate t1 c e1).1 = false ∧
    (hasArrayIndex e1 ≠ hasArrayIndex e2 →
      (isExactDuplicate t2 (isExactDuplicate t1 c e1).2 e2).1 = true ∧
      (isExactDuplicate t2 (isExactDuplicate t1 c e1).2 e2).2 = (isExactDuplicate t1 c e1).2) ∧
    (hasArrayIndex e1 = hasArrayIndex e2 →
      (isExactDuplicate t2 (isExactDuplicate t1 c e1).2 e2).1 = false ∧
      assocFind? (isExactDuplicate t2 (isExactDuplicate t1 c e1).2 e2).2 (consumerSignature e2) =
        some ⟨t2, hasArrayIndex e2⟩) := by
  have hd1 : consumerDupCheck t1 c e1 = false := by
    simp [consumerDupCheck, hfresh]
  have hstep1 : isExactDuplicate t1 c e1 =
      (false, cleanupEventCaches t1
        (assocSet c (consumerSignature e1) ⟨t1, hasArrayIndex e1⟩)) := by
    rw [isExactDuplicate, hd1]
    simp
  have hrec : assocFind? (isExactDuplicate t1 c e1).2 (consumerSignature e1) =
      some ⟨t1, hasArrayIndex e1⟩ := by
    rw [hstep1]
    unfold cleanupEventCaches
    exact assocFind?_filter_of_keep _ _ _ _
      (assocFind?_assocSet_self c (consumerSignature e1) ⟨t1, hasArrayIndex e1⟩)
      (by simp [DUPLICATE_TIMEOUT])
  refine ⟨by rw [hstep1], ?_, ?_⟩
  · intro hne
    have hbne : (hasArrayIndex e1 != hasArrayIndex e2) = true := by
      cases h1 : hasArrayIndex e1 <;> cases h2 : hasArrayIndex e2 <;> simp_all
    have hd2 : consumerDupCheck t2 (isExactDuplicate t1 c e1).2 e2 = true := by
      unfold consumerDupCheck
      rw [← hsig, hrec]
      simp [hbne, DUPLICATE_TIMEOUT, hwin]
    constructor
    · rw [isExactDuplicate, hd2]
      simp
    · rw [isExactDuplicate, hd2]
      simp
  · intro heq
    have hd2 : consumerDupCheck t2 (isExactDuplicate t1 c e1).2 e2 = false := by
      unfold consumerDupCheck
      rw [← hsig, hrec]
      simp [heq]
    have hstep2 : isExactDuplicate t2 (isExactDuplicate t1 c e1).2 e2 =
        (false, cleanupEventCaches t2
          (assocSet (isExactDuplicate t1 c e1).2 (consumerSignature e2)
            ⟨t2, hasArrayIndex e2⟩)) := by
      rw [isExactDuplicate, hd2]
      simp
    refine ⟨by rw [hstep2], ?_⟩
    rw [hstep2]
    unfold cleanupEventCaches
    exact assocFind?_filter_of_keep _ _ _ _
      (assocFind?_assocSet_self (isExactDuplicate t1 c e1).2 (consumerSignature e2)
        (⟨t2, hasArrayIndex e2⟩ : RecentEntry))
      (by simp [DUPLICATE_TIMEOUT])

/-- Closed instance of C3: a backlog delivery with index followed 1000 ms
later by the same logical event without index — the second is dropped and
the cache is untouched. -/
theorem presentation_cache_index_tolerance_witness :
    (isExactDuplicate 0 [] eIdxW).1 = false ∧
    (isExactDuplicate 1000 (isExactDuplicate 0 [] eIdxW).2 eNoIdxW).1 = true ∧
    (isExactDuplicate 1000 (isExactDuplicate 0 [] eIdxW).2 eNoIdxW).2 =
      (isExactDuplicate 0 [] eIdxW).2 := by
  have h := presentation_cache_index_tolerance eIdxW eNoIdxW [] 0 1000
    (by decide) rfl (by decide)
  exact ⟨h.1, (h.2.1 (by decide)).1, (h.2.1 (by decide)).2⟩

/-! ## Consumer-side event log (content script listener, lines 382–459) -/

/-- A stored log event: the `id` and `timestamp` assigned on delivery and
the fields the duplicate check reads. -/
structure LogEvent where
  id : Int
  timestamp : Int
  fields : EventFields

/-- The expanded-states key `` `event-${event.id}` ``. -/
def eventKey (ev : LogEvent) : String :=
  "event-" ++ toString ev.id

/-- The mutable consumer-side state the listener touches. -/
structure UIState where
  eventLog : List LogEvent
  expandedStates : List (String × Bool)
  recentEvents : RecentCache
  suppressedDuplicates : Int

/-- `cleanupEventLog` (content script:217): when the log exceeds
`maxEvents`, splice exactly the excess entries off the front and delete
their expanded-state records. -/
def cleanupEventLog (maxEvents : Nat) (log : List LogEvent)
    (expanded : List (String × Bool)) : List LogEvent × List (String × Bool) :=
  if log.length > maxEvents then
    let eventsToRemove := log.length - maxEvents
    let removedEvents := log.take eventsToRemove
    (log.drop eventsToRemove,
      expanded.filter (fun kv => !(removedEvents.any (fun ev => eventKey ev == kv.1))))
  else (log, expanded)

/-- `eventLog.sort((a, b) => new Date(a.timestamp) - new Date(b.timestamp))`
— a stable ascending sort by timestamp. -/
def sortByTimestamp (log : List LogEvent) : List LogEvent :=
  log.mergeSort (fun a b => decide (a.timestamp ≤ b.timestamp))

/-- `cleanupExpandedStates` (content script:1172): keep only the states of
the last 20 events. -/
def cleanupExpandedStates (log : List LogEvent) (expanded : List (String × Bool)) :
    List (String × Bool) :=
  let currentIds := (log.drop (log.length - 20)).map eventKey
  expanded.filter (fun kv => currentIds.contains kv.1)

/-- The storage portion of the `matomoEventDetected` listener (content
script:423–438): run the duplicate check; a duplicate only bumps the
suppression counter; otherwise the event is pushed, the log trimmed,
sorted by timestamp and the expanded states swept. -/
def processDelivery (maxEvents : Nat) (now : Int) (st : UIState) (d : LogEvent) : UIState :=
  let dup := isExactDuplicate now st.recentEvents d.fields
  if dup.1 then
    { st with recentEvents := dup.2, suppressedDuplicates := st.suppressedDuplicates + 1 }
  else
    let log1 := st.eventLog ++ [d]
    let cleaned := cleanupEventLog maxEvents log1 st.expandedStates
    let log2 := sortByTimestamp cleaned.1
    { eventLog := log2,
      expandedStates := cleanupExpandedStates log2 cleaned.2,
      recentEvents := dup.2,
      suppressedDuplicates := st.suppressedDuplicates }

/-- C9: the `maxEvents` bound is an invariant of the listener — after any
delivery is processed the log holds at most `maxEvents` entries — and the
trim removes exactly the oldest entries from the front of the log,
deleting exactly the expanded-state records of the removed events. -/
theorem event_log_bound_invariant (maxEvents : Nat) (now : Int) (st : UIState) (d : LogEvent)
    (hinv : st.eventLog.length ≤ maxEvents) :
    (processDelivery maxEvents now st d).eventLog.length ≤ maxEvents ∧
    (∀ (log : List LogEvent) (exp : List (String × Bool)), maxEvents < log.length →
      cleanupEventLog maxEvents log exp =
        (log.drop (log.length - maxEvents),
          exp.filter (fun kv =>
            !((log.take (log.length - maxEvents)).any (fun ev => eventKey ev == kv.1))))) := by
  constructor
  · by_cases hd : (isExactDuplicate now st.recentEvents d.fields).1 = true
    · simpa [processDelivery, hd] using hinv
    · have hd' : (isExactDuplicate now st.recentEvents d.fields).1 = false := by
        cases hb : (isExactDuplicate now st.recentEvents d.fields).1
        · rfl
        · exact absurd hb hd
      simp only [processDelivery, hd', Bool.false_eq_true, if_false]
      rw [sortByTimestamp, List.length_mergeSort]
      unfold cleanupEventLog
      by_cases hlen : (st.eventLog ++ [d]).length > maxEvents
      · simp only [hlen, if_true, List.length_drop]
        omega
      · simp only [hlen, if_false]
        omega
  · intro log exp h
    unfold cleanupEventLog
    rw [if_pos h]

/-- A concrete log event whose name carries its id. -/
def logEvW (i : Int) : LogEvent :=
  ⟨i, i, { eventName := .str (toString i), source := some "_mtm.push",
           details := .null, arrayIndex := .null }⟩

/-- A concrete full state: two stored events, one expanded record. -/
def stW : UIState :=
  ⟨[logEvW 1, logEvW 2], [("event-1", true)], [], 0⟩

/-- Closed instance of C9: with a bound of 2 and a full log, processing a
third delivery keeps the log within the bound. -/
theorem event_log_bound_invariant_witness :
    (processDelivery 2 0 stW (logEvW 3)).eventLog.length ≤ 2 :=
  (event_log_bound_invariant 2 0 stW (logEvW 3) (by decide)).1

/-! ## Initial backlog scan (injected-script.js:1234–1366) -/

/-- `TAG_FIELDS` (injected-script.js:49). -/
def TAG_FIELDS : List String := ["tags", "firedTags", "mtm.tags", "gtm.tags"]

/-- `extractFiredTags` (injected-script.js:133): first array value found
under a tag field (dotted fields search nested), then any truthy
`tagName` / `mtm.tagName` properties appended. -/
def extractFiredTags (data : JSVal) : List JSVal :=
  let base :=
    match TAG_FIELDS.findSome? (fun f =>
      match getNestedValue data f with
      | .arr xs => some xs
      | _ => none) with
    | some xs => xs
    | none => []
  let withTag :=
    if data.truthy && data.isObjectType && (jsIndex data "tagName").truthy then
      base ++ [jsIndex data "tagName"]
    else base
  if data.truthy && data.isObjectType && (jsIndex data "mtm.tagName").truthy then
    withTag ++ [jsIndex data "mtm.tagName"]
  else withTag

/-- The event record built by `analyzeMTMDirectPushWithTimestamp`
(injected-script.js:1315–1358). Trigger-analysis and container enrichment
add further fields before dispatch; they do not touch the ones below. -/
structure HistEventData where
  source : String
  objectName : String
  rawData : JSVal
  firedTags : List JSVal
  isHistorical : Bool
  arrayIndex : JSVal
  sourceType : String
  detectionMethod : String
  eventName : JSVal
  details : JSVal

/-- `INTERVALS.HISTORICAL_OFFSET` (ms). -/
def HISTORICAL_OFFSET : Int := 5000

/-- `analyzeMTMDirectPushWithTimestamp`: build the record (the `_debug`
block is embedded into `details`) and hand it to the dispatch path with
the caller-provided timestamp. -/
def analyzeMTMDirectPushWithTimestamp (objectName : String) (data : JSVal) (timestamp : Int)
    (isHistorical : Bool) (arrayIndex : JSVal) : HistEventData × Int :=
  let debugInfo : JSVal := .obj [
    ("sourceType", .str (if isHistorical then "initial-scan" else "live-proxy")),
    ("detectionMethod", .str (if isHistorical then "array-read" else "proxy-intercept")),
    ("arrayIndex", arrayIndex),
    ("isHistorical", .bool isHistorical)]
  let nameAndDetails : JSVal × JSVal :=
    match data with
    | .arr xs =>
      ((xs.getD 0 .undefined).jsOr (.str "MTM Array Event"),
        .obj [("action", xs.getD 0 .undefined), ("parameters", .arr (xs.drop 1)),
              ("_debug", debugInfo)])
    | .obj fs =>
      ((jsIndex (.obj fs) "event").jsOr ((jsIndex (.obj fs) "eventName").jsOr
          (.str "MTM Direct Object")),
        .obj (assocSet fs "_debug" debugInfo))
    | v => (.str "MTM Direct Value", .obj [("value", v), ("_debug", debugInfo)])
  ({ source := objectName ++ ".push" ++ (if isHistorical then " (historical)" else ""),
     objectName := objectName,
     rawData := data,
     firedTags := extractFiredTags data,
     isHistorical := isHistorical,
     arrayIndex := arrayIndex,
     sourceType := if isHistorical then "initial-scan" else "live-proxy",
     detectionMethod := if isHistorical then "array-read" else "proxy-intercept",
     eventName := nameAndDetails.1,
     details := nameAndDetails.2 }, timestamp)

/-- The skip guard of the scan (injected-script.js:1247):
`entry && typeof entry === 'object' && entry.__mtm_processed`. -/
def entryAlreadyProcessed (entry : JSVal) : Bool :=
  entry.truthy && entry.isObjectType && (jsIndex entry "__mtm_processed").truthy

/-- The `_mtm` branch of `monitorExistingArrays` (injected-script.js:1240):
walk the pre-existing array in order; every entry not yet marked processed
is analyzed with the synthetic timestamp
`now - (length - index) * HISTORICAL_OFFSET` and its array index, as a
historical event when this is the initial scan. -/
def monitorExistingMtm (mtm : List JSVal) (now : Int) (initialScanCompleted watchMTM : Bool) :
    List (HistEventData × Int) :=
  if !watchMTM then []
  else
    let wasInitialScan := !initialScanCompleted
    mtm.enum.filterMap (fun p =>
      if entryAlreadyProcessed p.2 then none
      else some (analyzeMTMDirectPushWithTimestamp "_mtm" p.2
        (now - (mtm.length - p.1) * HISTORICAL_OFFSET) wasInitialScan (.num p.1)))

/-- C7: the initial scan over a pre-existing 3-entry backlog produces 3
events, all historical, in original array order, with the strictly
increasing synthetic timestamps `now-15000 < now-10000 < now-5000`, each
preceding the scan time `now` (live events are stamped at or after `now`),
and with array indices 0, 1, 2. -/
theorem initial_scan_three_backlog (e0 e1 e2 : JSVal) (now : Int)
    (h0 : entryAlreadyProcessed e0 = false)
    (h1 : entryAlreadyProcessed e1 = false)
    (h2 : entryAlreadyProcessed e2 = false) :
    (monitorExistingMtm [e0, e1, e2] now false true).length = 3 ∧
    (monitorExistingMtm [e0, e1, e2] now false true).map (·.2) =
      [now - 15000, now - 10000, now - 5000] ∧
    (monitorExistingMtm [e0, e1, e2] now false true).map (·.1.isHistorical) =
      [true, true, true] ∧
    (monitorExistingMtm [e0, e1, e2] now false true).map (·.1.rawData) = [e0, e1, e2] ∧
    (monitorExistingMtm [e0, e1, e2] now false true).map (·.1.arrayIndex) =
      [.num 0, .num 1, .num 2] ∧
    now - 15000 < now - 10000 ∧ now - 10000 < now - 5000 ∧ now - 5000 < now := by
  have hout : monitorExistingMtm [e0, e1, e2] now false true =
      [analyzeMTMDirectPushWithTimestamp "_mtm" e0 (now - 15000) true (.num 0),
       analyzeMTMDirectPushWithTimestamp "_mtm" e1 (now - 10000) true (.num 1),
       analyzeMTMDirectPushWithTimestamp "_mtm" e2 (now - 5000) true (.num 2)] := by
    simp [monitorExistingMtm, List.enum, List.enumFrom, h0, h1, h2, HISTORICAL_OFFSET]
  refine ⟨?_, ?_, ?_, ?_, ?_, by omega, by omega, by omega⟩ <;>
    simp [hout, analyzeMTMDirectPushWithTimestamp]

/-- Closed instance of C7: a 3-entry backlog of an object, an array and a
scalar at scan time 100000. -/
theorem initial_scan_three_backlog_witness :
    (monitorExistingMtm [.obj [("event", .str "a")], .arr [.str "b"], .str "c"]
        100000 false true).map (·.2) = [85000, 90000, 95000] :=
  (initial_scan_three_backlog (.obj [("event", .str "a")]) (.arr [.str "b"]) (.str "c")
    100000 (by decide) (by decide) (by decide)).2.1

/-! ## Wrapped native append (injected-script.js:342–471)

The script runs under `'use strict'` (line 12) and the wrapped
`window._mtm.push` contains no `try`/`catch`.  The synchronous path of
`analyzeMTMDirectPush` ends with `data.__mtm_processed = true` for object
entries, and in strict mode that assignment throws a `TypeError` when the
object is not extensible (frozen).  A heap entry is therefore modelled
with its current processed marker and its frozen-ness. -/

/-- A heap entry reachable from the monitored array: its value, the state
of its `__mtm_processed` own property, and whether it is frozen (a
strict-mode write to a frozen object throws). `processed`/`frozen` are
only meaningful for object-typed values — the source guards every marker
access with `typeof data === 'object'`. -/
structure MutEntry where
  value : JSVal
  processed : Bool
  frozen : Bool

/-- The record built by `createMTMEventData` (injected-script.js:480). -/
structure MTMEventData where
  source : String
  objectName : String
  rawData : JSVal
  arrayIndex : JSVal
  eventName : JSVal
  details : JSVal

/-- `createMTMEventData` — pure record construction, the same three-way
case analysis on the pushed value as the historical variant. -/
def createMTMEventData (objectName : String) (data : JSVal) (arrayIndex : JSVal) :
    MTMEventData :=
  let nameAndDetails : JSVal × JSVal :=
    match data with
    | .arr xs =>
      ((xs.getD 0 .undefined).jsOr (.str "MTM Array Event"),
        .obj [("action", xs.getD 0 .undefined), ("parameters", .arr (xs.drop 1))])
    | .obj fs =>
      ((jsIndex (.obj fs) "event").jsOr ((jsIndex (.obj fs) "eventName").jsOr
          (.str "MTM Direct Object")), .obj fs)
    | v => (.str "MTM Direct Value", .obj [("value", v)])
  { source := objectName ++ ".push",
    objectName := objectName,
    rawData := data,
    arrayIndex := arrayIndex,
    eventName := nameAndDetails.1,
    details := nameAndDetails.2 }

/-- `data && typeof data === 'object' && data.__mtm_processed` — the skip
guard used both by the wrapped push (line 350) and by
`analyzeMTMDirectPush` itself (line 447). -/
def pushProcessedGuard (a : MutEntry) : Bool :=
  a.value.truthy && a.value.isObjectType && a.processed

/-- The synchronous part of `analyzeMTMDirectPush` (injected-script.js:443):
skip already-processed entries; otherwise build the event record and queue
it for delayed enrichment (the `setTimeout(…, 50)` — returned as the first
component, queued even when the subsequent marking throws), then mark
object entries processed — which throws on a frozen object. -/
def analyzeMTMDirectPushSync (objectName : String) (a : MutEntry) (arrayIndex : JSVal) :
    Option MTMEventData × Except String MutEntry :=
  if pushProcessedGuard a then (none, .ok a)
  else
    let ev := createMTMEventData objectName a.value arrayIndex
    if a.value.truthy && a.value.isObjectType then
      if a.frozen then (some ev, .error "TypeError")
      else (some ev, .ok { a with processed := true })
    else (some ev, .ok a)

/-- The `args.forEach` body of the wrapped push (injected-script.js:349):
analyze each argument at index `lastKnownLength + argIndex`; an exception
propagates immediately, abandoning the remaining arguments. Returns the
queued enrichment tasks and either the (possibly marked) arguments or the
escaping exception. -/
def pushLoop (lastKnownLength : Nat) :
    Nat → List MutEntry → List MTMEventData × Except String (List MutEntry)
  | _, [] => ([], .ok [])
  | idx, a :: rest =>
    if pushProcessedGuard a then
      let r := pushLoop lastKnownLength (idx + 1) rest
      (r.1, r.2.map (a :: ·))
    else
      match analyzeMTMDirectPushSync "_mtm" a (.num ((lastKnownLength + idx : Nat) : Int)) with
      | (sched, .error msg) => (sched.toList, .error msg)
      | (sched, .ok a2) =>
        let r := pushLoop lastKnownLength (idx + 1) rest
        (sched.toList ++ r.1, r.2.map (a2 :: ·))

/-- Outcome of one wrapped `push(...args)` call: the queued enrichment
tasks, and either the array after the original append together with the
original push's return value (the new length), or the exception that
escaped to the caller — in which case the original append never ran and
the array is unchanged. -/
structure PushOutcome where
  scheduled : List MTMEventData
  result : Except String (List MutEntry × Nat)

/-- The wrapped `window._mtm.push` (injected-script.js:346–362): run the
analysis loop over the arguments, then perform the original append and
return its value. There is no `try`/`catch`: an exception from the loop
escapes before `originalPush.apply` runs. -/
def wrappedMtmPush (arr : List MutEntry) (lastKnownLength : Nat) (args : List MutEntry) :
    PushOutcome :=
  let r := pushLoop lastKnownLength 0 args
  { scheduled := r.1,
    result := match r.2 with
      | .error msg => .error msg
      | .ok args2 => .ok (arr ++ args2, arr.length + args.length) }

/-- An unprocessed frozen object entry. -/
def frozenEntryW : MutEntry := ⟨.obj [("event", .str "x")], false, true⟩

/-- C8 counterexample: pushing a frozen, unprocessed object entry makes
the wrapped push raise a `TypeError` out of the monitoring code — the
internal failure is not swallowed and the original append never runs, so
the claim fails at this input. -/
theorem wrapped_push_raises_counterexample :
    (wrappedMtmPush [] 0 [frozenEntryW]).result = .error "TypeError" := rfl

/-- An entry whose synchronous analysis cannot throw: every object entry
is either already processed or not frozen. -/
def entryDoesNotThrow (a : MutEntry) : Bool :=
  !(a.value.truthy && a.value.isObjectType && !a.processed && a.frozen)

/-- The analysis loop succeeds on arguments that cannot throw, preserving
the argument values (only processed markers change) and their count. -/
theorem pushLoop_ok (lastKnownLength : Nat) (args : List MutEntry)
    (h : ∀ a ∈ args, entryDoesNotThrow a = true) (idx : Nat) :
    ∃ args2, (pushLoop lastKnownLength idx args).2 = .ok args2 ∧
      args2.map (·.value) = args.map (·.value) := by
  induction args generalizing idx with
  | nil => exact ⟨[], rfl, rfl⟩
  | cons a rest ih =>
    have ha : entryDoesNotThrow a = true := h a (List.mem_cons_self a rest)
    have hrest : ∀ x ∈ rest, entryDoesNotThrow x = true :=
      fun x hx => h x (List.mem_cons_of_mem a hx)
    obtain ⟨args2, hok, hvals⟩ := ih hrest (idx + 1)
    by_cases hg : pushProcessedGuard a = true
    · refine ⟨a :: args2, ?_, ?_⟩
      · simp [pushLoop, hg, hok, Except.map]
      · simp [hvals]
    · have hg' : pushProcessedGuard a = false := by
        cases hb : pushProcessedGuard a
        · rfl
        · exact absurd hb hg
      by_cases hobj : (a.value.truthy && a.value.isObjectType) = true
      · rw [Bool.and_eq_true] at hobj
        have hp : a.processed = false := by
          unfold pushProcessedGuard at hg'
          cases hp : a.processed
          · rfl
          · simp [hobj.1, hobj.2, hp] at hg'
        have hf : a.frozen = false := by
          unfold entryDoesNotThrow at ha
          cases hf : a.frozen
          · rfl
          · simp [hobj.1, hobj.2, hp, hf] at ha
        refine ⟨{a with processed := true} :: args2, ?_, ?_⟩
        · simp [pushLoop, hg', analyzeMTMDirectPushSync, hobj.1, hobj.2, hf, hok, Except.map]
        · simp [hvals]
      · have hobj' : (a.value.truthy && a.value.isObjectType) = false := by
          cases hb : (a.value.truthy && a.value.isObjectType)
          · rfl
          · exact absurd hb hobj
        refine ⟨a :: args2, ?_, ?_⟩
        · simp [pushLoop, hg', analyzeMTMDirectPushSync, hobj', hok, Except.map]
        · simp [hvals]

/-- C8 (amended): whenever no entry's processed-flag assignment can throw
(every object entry is already processed or not frozen — in particular
for all ordinary extensible entries), the wrapped push raises nothing,
every entry is still appended (values unchanged, only processed markers
set) and the original push's return value — the new length — is returned
unchanged. -/
theorem wrapped_push_preserved_when_no_throw (arr : List MutEntry) (lastKnownLength : Nat)
    (args : List MutEntry) (h : ∀ a ∈ args, entryDoesNotThrow a = true) :
    ∃ args2, (wrappedMtmPush arr lastKnownLength args).result =
        .ok (arr ++ args2, arr.length + args.length) ∧
      args2.map (·.value) = args.map (·.value) := by
  obtain ⟨args2, hok, hvals⟩ := pushLoop_ok lastKnownLength args h 0
  exact ⟨args2, by simp [wrappedMtmPush, hok], hvals⟩

/-- Closed instance of C8 (amended): pushing a plain string entry appends
it and returns the new length 1. -/
theorem wrapped_push_preserved_when_no_throw_witness :
    ∃ args2, (wrappedMtmPush [] 0 [⟨.str "a", false, false⟩]).result =
        .ok ([] ++ args2,
          List.length ([] : List MutEntry) + List.length [(⟨.str "a", false, false⟩ : MutEntry)]) ∧
      args2.map (·.value) = [(⟨.str "a", false, false⟩ : MutEntry)].map (·.value) :=
  wrapped_push_preserved_when_no_throw [] 0 [⟨.str "a", false, false⟩] (by decide)

end MTM